import Mathlib

/-!
Verification of the bridge-iq-client SDK (TypeScript) against its
natural-language specification.

The embedding below translates the relevant parts of the source:

* `src/models.ts` — the `AnalysisStatus` data model and its derived
  properties (`isCompleted`, `isFailed`, `isProcessing`, `hasPdf`, ...).
* `src/client.ts` — `handleErrorResponse` (error classification),
  `healthCheck`, `sendAnalysis` (multipart form construction),
  `waitForCompletion` (the polling state machine), `downloadReport`
  (URL resolution), and the retry interceptor installed in the
  constructor.
* `src/exceptions.ts` — the error taxonomy.

Conventions of the embedding:

* TypeScript strings are Lean `String`; optional (possibly `undefined`)
  fields are `Option _`.
* Time is an idealized integer millisecond clock: a status check is
  instantaneous and each suspension advances the clock by exactly the
  poll interval / backoff delay.  HTTP traffic is modelled by a
  response sequence `Nat → _` indexed by attempt/check number.
* JavaScript truthiness on an optional string (`if (x) ...`) is
  `x ≠ undefined/null ∧ x ≠ ""`, captured by `jsTruthy`.
-/

namespace BridgeIQ

/-! ## Data model (src/models.ts) -/

/- Enum `AnalysisStatusEnum` of `models.ts`; members are string-valued. -/
namespace AnalysisStatusEnum

def PENDING : String := "PENDING"

def PROCESSING : String := "PROCESSING"

def COMPLETED : String := "COMPLETED"

def MANUAL_COMPLETED : String := "MANUAL_COMPLETED"

def FAILED : String := "FAILED"

end AnalysisStatusEnum

/- Enum `PDFStatusEnum` of `models.ts`. -/
namespace PDFStatusEnum

def PENDING : String := "PENDING"

def PROCESSING : String := "PROCESSING"

def COMPLETED : String := "COMPLETED"

def FAILED : String := "FAILED"

end PDFStatusEnum

/-- The `AnalysisStatus` model of `models.ts` (constructor copies every
field of the payload verbatim).  `analysis_status` is a plain string in
the source (`analysis_status: string`), so unknown values are
representable. -/
structure AnalysisStatus where
  analysis_id : String
  request_id : String
  radiography_type : String
  patient_id : Option String
  created_at : String
  updated_at : String
  analysis_status : String
  error_message : Option String
  report_id : Option String
  report_status : Option String
  pdf_status : Option String
  report_pdf_link : Option String
  report_error : Option String
deriving DecidableEq

/-- Getter `isCompleted` of `AnalysisStatus` (models.ts:181-186). -/
def AnalysisStatus.isCompleted (s : AnalysisStatus) : Bool :=
  s.analysis_status == AnalysisStatusEnum.COMPLETED ||
  s.analysis_status == AnalysisStatusEnum.MANUAL_COMPLETED

/-- Getter `isFailed` of `AnalysisStatus` (models.ts:191-193). -/
def AnalysisStatus.isFailed (s : AnalysisStatus) : Bool :=
  s.analysis_status == AnalysisStatusEnum.FAILED

/-- Getter `isProcessing` of `AnalysisStatus` (models.ts:198-203). -/
def AnalysisStatus.isProcessing (s : AnalysisStatus) : Bool :=
  s.analysis_status == AnalysisStatusEnum.PENDING ||
  s.analysis_status == AnalysisStatusEnum.PROCESSING

/-- Getter `hasReport` of `AnalysisStatus` (models.ts:208-210);
`undefined`/`null` both collapse to `none`. -/
def AnalysisStatus.hasReport (s : AnalysisStatus) : Bool :=
  s.report_id.isSome

/-- Getter `hasPdf` of `AnalysisStatus` (models.ts:220-226):
`report_pdf_link !== undefined && report_pdf_link !== null &&
pdf_status === PDFStatusEnum.COMPLETED`. -/
def AnalysisStatus.hasPdf (s : AnalysisStatus) : Bool :=
  s.report_pdf_link.isSome && s.pdf_status == some PDFStatusEnum.COMPLETED

/-- Getter `isPdfProcessing` of `AnalysisStatus` (models.ts:233-237). -/
def AnalysisStatus.isPdfProcessing (s : AnalysisStatus) : Bool :=
  s.pdf_status == some PDFStatusEnum.PENDING ||
  s.pdf_status == some PDFStatusEnum.PROCESSING

/-- A concrete status record used for instantiating theorems: every
field is a fixed dummy except the `analysis_status` code. -/
def mkStatus (st : String) : AnalysisStatus :=
  { analysis_id := "test-analysis-id"
    request_id := "test-request-id"
    radiography_type := "panoramic_adult"
    patient_id := none
    created_at := "2023-01-01T12:00:00Z"
    updated_at := "2023-01-01T12:15:00Z"
    analysis_status := st
    error_message := none
    report_id := none
    report_status := none
    pdf_status := none
    report_pdf_link := none
    report_error := none }

/-! ## Error taxonomy (src/exceptions.ts)

Each exception class carries `message`, optional `response` payload and
optional `statusCode`.  For classification claims only the class (kind),
the message and the status code matter; the `response` payload is the
decoded body and is threaded through unchanged by `handleErrorResponse`,
so it is not repeated here. -/

/-- The exception classes declared in `exceptions.ts`.  `bridgeIQError`
is the base class, also thrown directly as the generic API error. -/
inductive ErrorKind where
  | bridgeIQError
  | authenticationError
  | connectionError
  | timeoutError
  | resourceNotFoundError
  | validationError
  | insufficientTokensError
  | serverError
  | rateLimitError
deriving DecidableEq

/-- An exception as raised: its class, its `message` and its
`statusCode` (absent when no HTTP response was received). -/
structure RaisedError where
  kind : ErrorKind
  message : String
  statusCode : Option Nat
deriving DecidableEq

/-! ## Error classification (src/client.ts `handleErrorResponse`, lines 201-254)

The function receives the HTTP status code of the failed response (or
`none` when no response arrived) and the message already extracted from
the body (`data.message || "HTTP Error <status>"`, or
`"No response received from server"`, ...).  It then dispatches on the
status code.  Note the JavaScript truthiness test
`statusCode && statusCode >= 500 && statusCode < 600`: a status of `0`
is falsy, and `statusCode || 'unknown'` renders `0` as `"unknown"`. -/

/-- The tail of the `handleErrorResponse` chain (client.ts:243-253):
the server-error test `statusCode && statusCode >= 500 && statusCode <
600` (JavaScript truthiness makes a status of 0 fail it) and the
generic catch-all whose message renders a falsy status as
`"unknown"`. -/
def classifyFallback (statusCode : Option Nat) (message : String) : RaisedError :=
  match statusCode with
  | some c =>
    if c ≠ 0 ∧ 500 ≤ c ∧ c < 600 then
      ⟨.bridgeIQError, "Server error (" ++ toString c ++ "): " ++ message, some c⟩
    else
      ⟨.bridgeIQError,
        "API error (" ++ (if c = 0 then "unknown" else toString c) ++ "): " ++ message,
        some c⟩
  | none =>
    ⟨.bridgeIQError, "API error (unknown): " ++ message, none⟩

/-- Shallow embedding of `BridgeIQClient.handleErrorResponse`
(client.ts:233-253): the `if`/`else` chain mapping a status code to a
raised exception. -/
def classifyError (statusCode : Option Nat) (message : String) : RaisedError :=
  if statusCode = some 401 then
    ⟨.authenticationError, "Authentication failed: " ++ message, statusCode⟩
  else if statusCode = some 402 then
    ⟨.insufficientTokensError, "Insufficient tokens: " ++ message, statusCode⟩
  else if statusCode = some 404 then
    ⟨.resourceNotFoundError, "Resource not found: " ++ message, statusCode⟩
  else if statusCode = some 400 then
    ⟨.validationError, "Validation error: " ++ message, statusCode⟩
  else if statusCode = some 408 ∨ statusCode = some 504 then
    ⟨.timeoutError, "Request timed out: " ++ message, statusCode⟩
  else
    classifyFallback statusCode message

/-! ## Health check (src/client.ts `healthCheck`, lines 262-315)

The axios promise resolves only for statuses in [200,300) (default
`validateStatus`); any other status rejects with `error.response` set,
and a pure network failure rejects with no `error.response`.  The
`then` branch re-checks `response.status === 200`; a 2xx other than 200
falls to the `else` branch and returns `false`.  In the `catch` branch
a 404 returns `true`, no response throws `ConnectionError`, and any
other response returns `false`. -/

/-- The decoded health-check response body as the code inspects it:
an object with a boolean `status` field, an object without one, a bare
boolean, or `null`. -/
inductive HealthBody where
  | objWithStatus (b : Bool)
  | objNoStatus
  | bareBool (b : Bool)
  | nullBody
deriving DecidableEq

/-- The transport outcome of the single GET issued by `healthCheck`
(after the interceptor's retries, which do not change the final
observed outcome kind): a response with a status and body, or no
response at all. -/
inductive HttpOutcome where
  | resp (status : Nat) (body : HealthBody)
  | noResp
deriving DecidableEq

/-- Result of `healthCheck`: a boolean resolution, or a raised
`ConnectionError`. -/
inductive HealthResult where
  | ok (b : Bool)
  | connErr
deriving DecidableEq

/-- `Boolean(data)` / the 200-branch of `healthCheck`
(client.ts:272-296): `'status' in data` reads the field; otherwise the
whole body is coerced (`data !== null ? Boolean(data) : false`), where
an object is truthy. -/
def interpretHealthBody : HealthBody → Bool
  | .objWithStatus b => b
  | .objNoStatus => true
  | .bareBool b => b
  | .nullBody => false

/-- Shallow embedding of `BridgeIQClient.healthCheck`
(client.ts:262-315). -/
def healthCheck (o : HttpOutcome) : HealthResult :=
  match o with
  | .resp st body =>
    if 200 ≤ st ∧ st < 300 then
      -- axios resolved: the `.then` handler runs
      if st = 200 then .ok (interpretHealthBody body) else .ok false
    else
      -- axios rejected with `error.response` present: the `.catch` handler
      if st = 404 then .ok true else .ok false
  | .noResp => .connErr

/-! ## Transport retry (src/client.ts constructor, response interceptor,
lines 138-172)

The interceptor fires on a rejected request.  It retries exactly when
`!error.response || (500 <= status && status < 600)` and the per-request
retry counter is below `maxRetries`; each retry first increments the
counter `n` and then suspends for `2^n * 100` ms.  Otherwise the error
is re-rejected unchanged.  The sequence of per-attempt results is
modelled by `outcomes : Nat → CallResult α` (attempt `i` is the `i`-th
send of the request). -/

/-- Result of one attempt: a successful response value, or a failure
carrying the response status (`none` when no response was received). -/
inductive CallResult (α : Type) where
  | ok (v : α)
  | fail (status : Option Nat)
deriving DecidableEq

/-- The interceptor's retry condition
`!error.response || (error.response.status >= 500 && error.response.status < 600)`. -/
def isRetryable : Option Nat → Bool
  | none => true
  | some s => decide (500 ≤ s) && decide (s < 600)

/-- One run of the interceptor loop starting with retry counter
`count`: returns the final result, the total number of attempts made,
and the list of backoff delays (ms) slept before each retry, in
order. -/
def retryGo {α : Type} (outcomes : Nat → CallResult α) (maxRetries : Nat)
    (count : Nat) : CallResult α × Nat × List Nat :=
  match outcomes count with
  | .ok v => (.ok v, count + 1, [])
  | .fail st =>
    if h : isRetryable st = true ∧ count < maxRetries then
      -- `config.__retryCount += 1; delay = 2^__retryCount * 100`
      let rest := retryGo outcomes maxRetries (count + 1)
      (rest.1, rest.2.1, 2 ^ (count + 1) * 100 :: rest.2.2)
    else
      (.fail st, count + 1, [])
termination_by maxRetries - count
decreasing_by omega

/-- A request as issued through the axios instance: attempt 0 plus the
interceptor's retries. -/
def retryWithBackoff {α : Type} (outcomes : Nat → CallResult α)
    (maxRetries : Nat) : CallResult α × Nat × List Nat :=
  retryGo outcomes maxRetries 0

/-! ## String helpers

Models of the JavaScript string operations the client uses, written
over the underlying character lists so that they evaluate by
`decide`/`rfl`. -/

/-- Does `l` begin with `p`? (model of `String.prototype.startsWith`
restricted to the character level). -/
def leadMatch : List Char → List Char → Bool
  | [], _ => true
  | _ :: _, [] => false
  | p :: ps, c :: cs => p == c && leadMatch ps cs

/-- `s.startsWith(p)` of JavaScript. -/
def jsStartsWith (s p : String) : Bool :=
  leadMatch p.data s.data

/-- Split a character list at every occurrence of the separator
character (model of `split('/')`-style operations; every part is kept,
including empty ones). -/
def splitChar (sep : Char) : List Char → List (List Char)
  | [] => [[]]
  | c :: cs =>
    let rest := splitChar sep cs
    if c == sep then [] :: rest
    else
      match rest with
      | [] => [[c]]
      | r :: rs => (c :: r) :: rs

/-- Join character-list segments with a separator character. -/
def joinWithChar (sep : Char) : List (List Char) → List Char
  | [] => []
  | [x] => x
  | x :: xs => x ++ sep :: joinWithChar sep xs

/-- Split a character list at the first occurrence of the contiguous
sequence `sep`, returning the parts before and after it. -/
def breakAtSeq (sep : List Char) : List Char → Option (List Char × List Char)
  | [] => if sep = [] then some ([], []) else none
  | c :: cs =>
    if leadMatch sep (c :: cs) then some ([], (c :: cs).drop sep.length)
    else
      match breakAtSeq sep cs with
      | some (a, b) => some (c :: a, b)
      | none => none

/-- `path.basename(p)` for POSIX paths without trailing slashes: the
part after the last `/`. -/
def basename (p : String) : String :=
  ⟨(splitChar '/' p.data).getLastD []⟩

/-- `reportUrl.replace(/^\//, '')` — remove one leading slash. -/
def stripLeadingSlash (s : String) : String :=
  if jsStartsWith s "/" then ⟨s.data.drop 1⟩ else s

/-! ## URL resolution (src/client.ts `downloadReport`, lines 569-575)

`new URL(ref, base).toString()` for an `http(s)` base without query or
fragment, per the WHATWG algorithm: the base URL's last path segment is
dropped and the relative reference's segments are appended (a reference
starting with `/` instead replaces the whole path).  Dot segments are
not modelled (none occur in the claims). -/

/-- WHATWG resolution of a path-only reference against an absolute
`scheme://host/…` base. -/
def urlResolve (base ref : String) : String :=
  match breakAtSeq "://".data base.data with
  | none => base
  | some (scheme, rest) =>
    match splitChar '/' rest with
    | [] => base
    | host :: segs =>
      if jsStartsWith ref "/" then
        ⟨scheme ++ "://".data ++ host ++ ref.data⟩
      else
        ⟨scheme ++ "://".data ++ host ++
          '/' :: joinWithChar '/' (segs.dropLast ++ splitChar '/' ref.data)⟩

/-- The fetch target chosen by `downloadReport` (client.ts:573-575):
`reportUrl.startsWith('http') ? reportUrl
  : new URL(reportUrl.replace(/^\//, ''), this.baseUrl).toString()`. -/
def downloadReportUrl (reportUrl baseUrl : String) : String :=
  if jsStartsWith reportUrl "http" then reportUrl
  else urlResolve baseUrl (stripLeadingSlash reportUrl)

/-! ## Multipart form construction (src/client.ts `sendAnalysis`,
lines 335-382) -/

/-- The `imagePath : string | Buffer` parameter. -/
inductive ImageInput where
  | path (p : String)
  | bytes (data : List Nat)
deriving DecidableEq

/-- The multipart body as assembled by `sendAnalysis`: the `image` part
(bytes plus filename) followed by the string fields in append order. -/
structure MultipartForm where
  imageFilename : String
  imageData : List Nat
  fields : List (String × String)
deriving DecidableEq

/-- JavaScript truthiness of an optional string parameter:
`undefined`, `null` and `""` are falsy. -/
def jsTruthy : Option String → Bool
  | none => false
  | some s => s != ""

/-- `if (x) formData.append(name, x)` — the entry contributed by one
optional parameter. -/
def optEntry (name : String) : Option String → List (String × String)
  | none => []
  | some v => if v != "" then [(name, v)] else []

/-- Shallow embedding of the body-construction part of
`BridgeIQClient.sendAnalysis` (client.ts:345-382).  `fileContent`
stands for `getFileContent` (a black-box path → bytes loader);
parameters appear in the source's order, `reportType` defaulting to
`"standard"`. -/
def sendAnalysisForm (fileContent : String → List Nat) (image : ImageInput)
    (patientId patientName patientGender patientDob radiographyType
      callbackUrl : Option String) (reportType : String := "standard") :
    MultipartForm :=
  let imageData := match image with
    | .path p => fileContent p
    | .bytes b => b
  let imageFilename := match image with
    | .path p => basename p
    | .bytes _ => "image.dcm"
  { imageFilename := imageFilename
    imageData := imageData
    fields :=
      [("report_type", reportType)]
        ++ optEntry "radiography_type" radiographyType
        ++ optEntry "patient_id" patientId
        ++ optEntry "patient_name" patientName
        ++ optEntry "patient_gender" patientGender
        ++ optEntry "patient_dob" patientDob
        ++ optEntry "callback_url" callbackUrl }

/-! ## Wait for completion (src/client.ts `waitForCompletion`,
lines 522-557)

```
const startTime = Date.now();
const endTime = startTime + timeout;
while (Date.now() < endTime) {
  const status = await this.checkStatus(requestId);
  if (status.isCompleted || status.isFailed) return status;
  await new Promise(resolve => setTimeout(resolve, pollInterval));
}
const elapsed = (Date.now() - startTime) / 1000;
throw new TimeoutError(`Timeout waiting for analysis to complete (` +
  `$\x7belapsed.toFixed(1)\x7ds elapsed)`);
```

Idealized clock: `elapsed` is the integer number of milliseconds since
`startTime`; a status check is instantaneous and each suspension
advances the clock by exactly `pollInterval`.  The status returned by
the `n`-th check (0-based) is `responses n`. -/

/-- `(ms / 1000).toFixed(1)`: the elapsed milliseconds rendered as
seconds with one decimal digit (round half up; the source value here is
always a non-negative integer number of milliseconds). -/
def toFixed1 (ms : Int) : String :=
  let d := (ms.toNat + 50) / 100
  toString (d / 10) ++ "." ++ toString (d % 10)

/-- The `TimeoutError` message built at the throw site. -/
def timeoutMessage (elapsedMs : Int) : String :=
  "Timeout waiting for analysis to complete (" ++ toFixed1 elapsedMs ++ "s elapsed)"

/-- How `waitForCompletion` ends: returning a terminal status (with the
total number of status checks performed and of poll-interval
suspensions taken), or throwing `TimeoutError` with the elapsed
milliseconds at the throw and the number of checks performed. -/
inductive WaitOutcome where
  | found (s : AnalysisStatus) (checks : Nat) (sleeps : Nat)
  | timedOut (elapsedMs : Int) (checks : Nat) (message : String)
deriving DecidableEq

/-- The `while` loop of `waitForCompletion`: `polls` status checks and
`sleeps` suspensions have already happened and the clock stands at
`elapsed` ms past `startTime`. -/
def waitGo (responses : Nat → AnalysisStatus) (pollInterval timeout : Int)
    (hp : 0 < pollInterval) (polls sleeps : Nat) (elapsed : Int) : WaitOutcome :=
  if elapsed < timeout then
    if (responses polls).isCompleted || (responses polls).isFailed then
      .found (responses polls) (polls + 1) sleeps
    else
      waitGo responses pollInterval timeout hp (polls + 1) (sleeps + 1)
        (elapsed + pollInterval)
  else
    .timedOut elapsed polls (timeoutMessage elapsed)
termination_by (timeout - elapsed).toNat
decreasing_by omega

/-- Shallow embedding of `BridgeIQClient.waitForCompletion`
(client.ts:522-557).  A non-positive poll interval together with a
positive timeout would make the idealized clock never reach the
deadline (the real code spins with zero-delay sleeps until wall-clock
time catches up); that configuration is outside the model (`none`).
With a non-positive timeout the loop condition fails on entry whatever
the poll interval, so the timeout branch is taken directly. -/
def waitForCompletion (responses : Nat → AnalysisStatus)
    (timeout : Int := 300000) (pollInterval : Int := 5000) : Option WaitOutcome :=
  if hp : 0 < pollInterval then
    some (waitGo responses pollInterval timeout hp 0 0 0)
  else if 0 < timeout then
    none
  else
    some (.timedOut 0 0 (timeoutMessage 0))

/-! ## Claim C7: `hasPdf` -/

/-- C7: for every `AnalysisStatus`, `hasPdf` is true iff `report_pdf_link`
is present and `pdf_status` equals COMPLETED; it is false when the link
is present but `pdf_status` differs, and false when `pdf_status` is
COMPLETED but the link is absent. -/
theorem hasPdf_spec (s : AnalysisStatus) :
    (s.hasPdf = true ↔
      s.report_pdf_link.isSome = true ∧ s.pdf_status = some PDFStatusEnum.COMPLETED)
    ∧ (s.report_pdf_link.isSome = true →
        s.pdf_status ≠ some PDFStatusEnum.COMPLETED → s.hasPdf = false)
    ∧ (s.report_pdf_link = none → s.hasPdf = false) := by
  unfold AnalysisStatus.hasPdf
  refine ⟨by simp, fun _ h => by simp [h], fun h => by simp [h]⟩

/-- A status with a finished PDF, used to instantiate `hasPdf_spec`. -/
def pdfReadyStatus : AnalysisStatus :=
  { mkStatus AnalysisStatusEnum.COMPLETED with
    report_id := some "test-report-id"
    report_status := some "COMPLETED"
    pdf_status := some "COMPLETED"
    report_pdf_link := some "https://api.example.com/report.pdf" }

/-- C7 witness: `hasPdf_spec` instantiated at a status with both fields
set, at one with the link but a PENDING PDF, and at one with a
COMPLETED PDF status but no link. -/
theorem hasPdf_spec_witness :
    pdfReadyStatus.hasPdf = true
    ∧ ({ pdfReadyStatus with pdf_status := some "PENDING" } : AnalysisStatus).hasPdf = false
    ∧ ({ pdfReadyStatus with report_pdf_link := none } : AnalysisStatus).hasPdf = false :=
  ⟨(hasPdf_spec pdfReadyStatus).1.mpr ⟨by decide, by decide⟩,
   (hasPdf_spec _).2.1 (by decide) (by decide),
   (hasPdf_spec _).2.2 (by decide)⟩

/-! ## Claim C6: `healthCheck` -/

/-- C6: healthCheck returns true for a 200 response with body
`{status: true}`, false for `{status: false}`, true for a bare `true`
body, true for a 404 response, false for any other non-200 response
without raising; and it raises a connection failure iff no response at
all was received. -/
theorem healthCheck_spec :
    healthCheck (.resp 200 (.objWithStatus true)) = .ok true
    ∧ healthCheck (.resp 200 (.objWithStatus false)) = .ok false
    ∧ healthCheck (.resp 200 (.bareBool true)) = .ok true
    ∧ (∀ b, healthCheck (.resp 404 b) = .ok true)
    ∧ (∀ st b, st ≠ 200 → st ≠ 404 → healthCheck (.resp st b) = .ok false)
    ∧ (∀ o, healthCheck o = .connErr ↔ o = .noResp) := by
  refine ⟨rfl, rfl, rfl, fun b => rfl, fun st b h1 h2 => ?_, fun o => ?_⟩
  · simp only [healthCheck]
    split_ifs <;> simp_all
  · cases o with
    | resp st body =>
      simp only [healthCheck]
      split_ifs <;> simp
    | noResp => simp [healthCheck]

/-- C6 witness: `healthCheck_spec` instantiated at a 500 response and at
the no-response outcome. -/
theorem healthCheck_spec_witness :
    healthCheck (.resp 500 .objNoStatus) = .ok false
    ∧ healthCheck .noResp = .connErr :=
  ⟨healthCheck_spec.2.2.2.2.1 500 .objNoStatus (by decide) (by decide),
   (healthCheck_spec.2.2.2.2.2 .noResp).mpr rfl⟩

/-! ## Claim C2: error classification

The claim expects statuses in 500-599 to raise the *distinct*
server-error kind (`ServerError` of exceptions.ts).  The code instead
throws the base `BridgeIQError` there — the same class as the generic
catch-all — distinguishing it only by the `"Server error (<status>)"`
message prefix; the `ServerError` class is defined but never raised by
`handleErrorResponse`. -/

/-- C2 counterexample: at HTTP status 500 the raised error's class is
the base `BridgeIQError`, not the distinct `ServerError` kind the claim
names (the same class the claim reserves for "anything else"). -/
theorem classifyError_5xx_counterexample :
    (classifyError (some 500) "boom").kind = ErrorKind.bridgeIQError
    ∧ ErrorKind.bridgeIQError ≠ ErrorKind.serverError
    ∧ (classifyError (some 999) "boom").kind = ErrorKind.bridgeIQError := by
  refine ⟨rfl, by decide, rfl⟩

/-- C2 amended: 401, 402, 404, 400, 408/504 map to authentication /
insufficient-credits / not-found / validation / timeout failures; a
status in 500-599 (other than 504) raises the base `BridgeIQError` with
a `"Server error (<status>)"` message, not a distinct class; anything
else (including no status) raises the base `BridgeIQError` with an
`"API error"` message; every raised error carries the server's message
as a suffix and the HTTP status code unchanged. -/
theorem classifyError_mapping (msg : String) :
    classifyError (some 401) msg
      = ⟨.authenticationError, "Authentication failed: " ++ msg, some 401⟩
    ∧ classifyError (some 402) msg
      = ⟨.insufficientTokensError, "Insufficient tokens: " ++ msg, some 402⟩
    ∧ classifyError (some 404) msg
      = ⟨.resourceNotFoundError, "Resource not found: " ++ msg, some 404⟩
    ∧ classifyError (some 400) msg
      = ⟨.validationError, "Validation error: " ++ msg, some 400⟩
    ∧ classifyError (some 408) msg
      = ⟨.timeoutError, "Request timed out: " ++ msg, some 408⟩
    ∧ classifyError (some 504) msg
      = ⟨.timeoutError, "Request timed out: " ++ msg, some 504⟩
    ∧ (∀ c, 500 ≤ c → c < 600 → c ≠ 504 →
        classifyError (some c) msg
          = ⟨.bridgeIQError, "Server error (" ++ toString c ++ "): " ++ msg, some c⟩)
    ∧ classifyError none msg = ⟨.bridgeIQError, "API error (unknown): " ++ msg, none⟩
    ∧ (∀ c, c ∉ ([401, 402, 404, 400, 408, 504] : List Nat) →
        ¬(500 ≤ c ∧ c < 600) → c ≠ 0 →
        classifyError (some c) msg
          = ⟨.bridgeIQError, "API error (" ++ toString c ++ "): " ++ msg, some c⟩)
    ∧ (∀ sc, (classifyError sc msg).statusCode = sc) := by
  refine ⟨rfl, rfl, rfl, rfl, rfl, rfl, fun c h1 h2 h3 => ?_, rfl, fun c hmem h5 h0 => ?_, fun sc => ?_⟩
  · unfold classifyError
    rw [if_neg (by simp; omega), if_neg (by simp; omega), if_neg (by simp; omega),
      if_neg (by simp; omega), if_neg (by push_neg; constructor <;> (simp; omega))]
    simp only [classifyFallback]
    rw [if_pos (by omega)]
  · simp only [List.mem_cons, List.not_mem_nil, or_false] at hmem
    push_neg at hmem
    unfold classifyError
    rw [if_neg (by simp; omega), if_neg (by simp; omega), if_neg (by simp; omega),
      if_neg (by simp; omega), if_neg (by push_neg; constructor <;> (simp; omega))]
    simp only [classifyFallback]
    rw [if_neg (by omega), if_neg (by omega)]
  · cases sc with
    | none => rfl
    | some c =>
      unfold classifyError
      simp only [classifyFallback]
      split_ifs <;> rfl

/-- C2 amended-claim witness: `classifyError_mapping` instantiated at
status 503, and its status-code preservation at 418. -/
theorem classifyError_mapping_witness :
    classifyError (some 503) "oops"
      = ⟨.bridgeIQError, "Server error (503): oops", some 503⟩
    ∧ (classifyError (some 418) "oops").statusCode = some 418 :=
  ⟨(classifyError_mapping "oops").2.2.2.2.2.2.1 503 (by decide) (by decide) (by decide),
   (classifyError_mapping "oops").2.2.2.2.2.2.2.2.2 (some 418)⟩

/-! ## Claim C3: downloadReport URL resolution

The spec's example expects the relative URL `/reports/abc.pdf` with
base `https://api.example.com/api/v1` to resolve to
`https://api.example.com/api/v1/reports/abc.pdf`.  The code strips the
leading slash and resolves with `new URL(..., baseUrl)`; since the base
URL has no trailing slash, WHATWG resolution drops its last path
segment `v1` and the actual fetch target is
`https://api.example.com/api/reports/abc.pdf`.  The repository's own
(skipped) unit test expects the `v1`-preserving target, so the spec
states the intent and the code has a resolution slip. -/

/-- C3: at the claim's own example the fetch target drops the base
URL's final path segment, contradicting the claimed resolution; an
absolute URL is passed through unmodified as claimed. -/
theorem downloadReport_url_resolution :
    downloadReportUrl "/reports/abc.pdf" "https://api.example.com/api/v1"
      = "https://api.example.com/api/reports/abc.pdf"
    ∧ downloadReportUrl "/reports/abc.pdf" "https://api.example.com/api/v1"
      ≠ "https://api.example.com/api/v1/reports/abc.pdf"
    ∧ downloadReportUrl "https://cdn.example.com/r.pdf" "https://api.example.com/api/v1"
      = "https://cdn.example.com/r.pdf" := by
  refine ⟨by decide, by decide, by decide⟩

/-! ## Claim C4: transport retry -/

/-- The attempt counter strictly grows: a run starting at attempt
`c` makes at least one attempt. -/
theorem retryGo_count_lt {α : Type} (outcomes : Nat → CallResult α)
    (m c : Nat) : c < (retryGo outcomes m c).2.1 := by
  unfold retryGo
  cases houc : outcomes c with
  | ok v => simp
  | fail st =>
    simp only
    by_cases hr : isRetryable st = true ∧ c < m
    · rw [dif_pos hr]
      have := retryGo_count_lt outcomes m (c + 1)
      simpa using by omega
    · rw [dif_neg hr]
      simp
termination_by m - c
decreasing_by omega

/-- The backoff delays of a run starting at attempt `c`: one delay per
retry, the `i`-th (0-based) being `2^(c+1+i) * 100` ms. -/
theorem retryGo_delays {α : Type} (outcomes : Nat → CallResult α)
    (m c : Nat) :
    (retryGo outcomes m c).2.2
      = (List.range ((retryGo outcomes m c).2.1 - 1 - c)).map
          (fun i => 2 ^ (c + 1 + i) * 100) := by
  unfold retryGo
  cases houc : outcomes c with
  | ok v => simp
  | fail st =>
    simp only
    by_cases hr : isRetryable st = true ∧ c < m
    · rw [dif_pos hr]
      have hlt := retryGo_count_lt outcomes m (c + 1)
      have ih := retryGo_delays outcomes m (c + 1)
      simp only
      rw [show (retryGo outcomes m (c + 1)).2.1 - 1 - c
            = ((retryGo outcomes m (c + 1)).2.1 - 1 - (c + 1)) + 1 from by omega,
        List.range_succ_eq_map, List.map_cons, List.map_map, ih]
      refine congrArg₂ _ (by norm_num) (List.map_congr_left fun a _ => ?_)
      simp only [Function.comp_apply, Nat.succ_eq_add_one]
      rw [show c + 1 + (a + 1) = c + 1 + 1 + a from by omega]
    · rw [dif_neg hr]
      simp
termination_by m - c
decreasing_by omega

/-- When every attempt up to the retry ceiling fails retryably, the run
exhausts the budget and surfaces the last attempt's error after
`m - c` further retries. -/
theorem retryGo_exhaust {α : Type} (outcomes : Nat → CallResult α)
    (m c : Nat) (hc : c ≤ m)
    (hall : ∀ i, i ≤ m → ∃ st, outcomes i = .fail st ∧ isRetryable st = true) :
    ∃ st, outcomes m = .fail st ∧
      retryGo outcomes m c
        = (.fail st, m + 1, (List.range' (c + 1) (m - c)).map (fun j => 2 ^ j * 100)) := by
  obtain ⟨st, hst, hrt⟩ := hall c hc
  by_cases hcm : c < m
  · obtain ⟨st', hst', heq⟩ := retryGo_exhaust outcomes m (c + 1) (by omega) hall
    refine ⟨st', hst', ?_⟩
    unfold retryGo
    rw [hst]
    simp only
    rw [dif_pos ⟨hrt, hcm⟩, heq,
      show m - c = (m - (c + 1)) + 1 from by omega, List.range'_succ]
    simp
  · have hcm' : c = m := by omega
    subst hcm'
    refine ⟨st, hst, ?_⟩
    unfold retryGo
    rw [hst]
    simp only
    rw [dif_neg (by omega)]
    simp
termination_by m - c
decreasing_by omega

/-- Every attempt that was followed by another attempt (i.e. that the
interceptor chose to retry) had failed retryably: a retry is never
granted after a success or a non-retryable failure, at any position in
the run. -/
theorem retryGo_retried_retryable {α : Type} (outcomes : Nat → CallResult α)
    (m c i : Nat) (hci : c ≤ i) (hlt : i + 1 < (retryGo outcomes m c).2.1) :
    ∃ st, outcomes i = .fail st ∧ isRetryable st = true := by
  unfold retryGo at hlt
  cases houc : outcomes c with
  | ok v =>
    rw [houc] at hlt
    simp at hlt
    omega
  | fail st =>
    rw [houc] at hlt
    simp only at hlt
    by_cases h : isRetryable st = true ∧ c < m
    · rw [dif_pos h] at hlt
      simp only at hlt
      obtain ⟨hr, hcm⟩ := h
      by_cases hic : i = c
      · exact hic ▸ ⟨st, houc, hr⟩
      · exact retryGo_retried_retryable outcomes m (c + 1) i (by omega) hlt
    · rw [dif_neg h] at hlt
      simp at hlt
      omega
termination_by m - c
decreasing_by omega

/-- A non-retryable failure terminates the run wherever it occurs: if
attempts `c, …, i-1` fail retryably (so each is retried, `i ≤ m`
keeping the budget open) and attempt `i` fails non-retryably, the run
stops right there — `i + 1 - c` attempts from `c`, the error unchanged,
and only the delays of the earlier retries slept. -/
theorem retryGo_stops_nonretryable {α : Type} (outcomes : Nat → CallResult α)
    (m c i : Nat) (st : Option Nat) (hci : c ≤ i) (him : i ≤ m)
    (hpre : ∀ k, c ≤ k → k < i → ∃ st', outcomes k = .fail st' ∧ isRetryable st' = true)
    (hfail : outcomes i = .fail st) (hnr : isRetryable st = false) :
    retryGo outcomes m c
      = (.fail st, i + 1, (List.range' (c + 1) (i - c)).map (fun j => 2 ^ j * 100)) := by
  by_cases hic : c = i
  · subst hic
    unfold retryGo
    rw [hfail]
    simp only
    rw [dif_neg (by simp [hnr])]
    simp
  · obtain ⟨st', houc, hrt'⟩ := hpre c (le_refl c) (by omega)
    have heq := retryGo_stops_nonretryable outcomes m (c + 1) i st (by omega) him
      (fun k hk1 hk2 => hpre k (by omega) hk2) hfail hnr
    unfold retryGo
    rw [houc]
    simp only
    rw [dif_pos ⟨hrt', by omega⟩, heq,
      show i - c = (i - (c + 1)) + 1 from by omega, List.range'_succ]
    simp
termination_by m - c
decreasing_by omega

/-- C4: the transport layer retries only when no response was received
or the status is in [500,600), never on any other failure — a
non-retryable first attempt propagates at once with a single attempt
and no delay; universally, every attempt that was followed by a retry
had failed retryably, and a non-retryable failure at any position
(after retryable ones) ends the run there with the error propagated
unchanged; the `i`-th backoff delay (0-based) is `2^(i+1) * 100` ms,
i.e. `2^n * 100` before the `n`-th retry with `n` starting at 1; when
every attempt fails retryably the budget is exhausted and the last
attempt's error propagates unchanged after `maxRetries + 1` total
attempts; a request failing twice with 503 then succeeding, with
`maxRetries = 3`, returns the success value with exactly 3 total
attempts (delays 200 ms and 400 ms); and a 503 followed by a 400 stops
at 2 attempts with the 400 propagated. -/
theorem transport_retry_spec {α : Type} (outcomes : Nat → CallResult α)
    (maxRetries : Nat) :
    (∀ st, isRetryable st = false → outcomes 0 = .fail st →
      retryWithBackoff outcomes maxRetries = (.fail st, 1, []))
    ∧ (∀ i, i + 1 < (retryWithBackoff outcomes maxRetries).2.1 →
        ∃ st, outcomes i = .fail st ∧ isRetryable st = true)
    ∧ (∀ i st, i ≤ maxRetries →
        (∀ k, k < i → ∃ st', outcomes k = .fail st' ∧ isRetryable st' = true) →
        outcomes i = .fail st → isRetryable st = false →
        retryWithBackoff outcomes maxRetries
          = (.fail st, i + 1, (List.range' 1 i).map (fun j => 2 ^ j * 100)))
    ∧ ((retryWithBackoff outcomes maxRetries).2.2
        = (List.range (retryWithBackoff outcomes maxRetries).2.2.length).map
            (fun i => 2 ^ (i + 1) * 100))
    ∧ ((∀ i, i ≤ maxRetries → ∃ st, outcomes i = .fail st ∧ isRetryable st = true) →
        ∃ st, outcomes maxRetries = .fail st ∧
          retryWithBackoff outcomes maxRetries
            = (.fail st, maxRetries + 1,
                (List.range' 1 maxRetries).map (fun j => 2 ^ j * 100)))
    ∧ (∀ v : α,
        retryWithBackoff (fun i => if i < 2 then .fail (some 503) else .ok v) 3
          = (.ok v, 3, [200, 400]))
    ∧ retryWithBackoff
        (fun i => if i = 0 then (.fail (some 503) : CallResult α) else .fail (some 400)) 3
        = (.fail (some 400), 2, [200]) := by
  refine ⟨fun st hrt hfail => ?_, fun i hi => ?_, fun i st hi hpre hfail hnr => ?_, ?_,
    fun hall => ?_, fun v => ?_, ?_⟩
  · unfold retryWithBackoff retryGo
    rw [hfail]
    simp only
    rw [dif_neg (by simp [hrt])]
  · exact retryGo_retried_retryable outcomes maxRetries 0 i (Nat.zero_le i)
      (by simpa [retryWithBackoff] using hi)
  · have h := retryGo_stops_nonretryable outcomes maxRetries 0 i st (Nat.zero_le i)
      hi (fun k _ hk => hpre k hk) hfail hnr
    simpa [retryWithBackoff] using h
  · have hd := retryGo_delays outcomes maxRetries 0
    unfold retryWithBackoff
    rw [hd]
    simp only [List.length_map, List.length_range]
    exact List.map_congr_left fun a _ => by
      rw [show 0 + 1 + a = a + 1 from by omega]
  · have := retryGo_exhaust outcomes maxRetries 0 (by omega) hall
    simpa [retryWithBackoff] using this
  · simp [retryWithBackoff, retryGo, isRetryable]
  · simp [retryWithBackoff, retryGo, isRetryable]

/-- C4 witness: `transport_retry_spec` instantiated at the 503-503-ok
sequence with `maxRetries = 3`, at an immediately failing 400 (not
retried, error propagates with one attempt), and at a 503 followed by a
400 (one retry, then the non-retryable 400 stops the run at 2
attempts). -/
theorem transport_retry_spec_witness :
    retryWithBackoff (fun i => if i < 2 then CallResult.fail (some 503) else .ok 7) 3
      = (.ok 7, 3, [200, 400])
    ∧ retryWithBackoff (fun _ => (CallResult.fail (some 400) : CallResult Nat)) 3
      = (.fail (some 400), 1, [])
    ∧ retryWithBackoff
        (fun i => if i = 0 then (.fail (some 503) : CallResult Nat) else .fail (some 400)) 3
      = (.fail (some 400), 2, [200]) :=
  ⟨(transport_retry_spec (fun i => if i < 2 then CallResult.fail (some 503) else .ok 7)
      3).2.2.2.2.2.1 7,
   (transport_retry_spec (fun _ => (CallResult.fail (some 400) : CallResult Nat)) 3).1
      (some 400) (by decide) rfl,
   (transport_retry_spec (fun i => if i = 0 then (.fail (some 503) : CallResult Nat)
      else .fail (some 400)) 3).2.2.2.2.2.2⟩

/-! ## Claims C1, C5, C9, C10: the polling state machine -/

/-- The terminal analysis-status codes: the loop in `waitForCompletion`
returns exactly when `status.isCompleted || status.isFailed`. -/
def terminalStatuses : List String :=
  [AnalysisStatusEnum.COMPLETED, AnalysisStatusEnum.MANUAL_COMPLETED,
    AnalysisStatusEnum.FAILED]

/-- The loop's exit test matches membership in `terminalStatuses`. -/
theorem terminal_iff (s : AnalysisStatus) :
    (s.isCompleted || s.isFailed) = true ↔ s.analysis_status ∈ terminalStatuses := by
  simp [AnalysisStatus.isCompleted, AnalysisStatus.isFailed, terminalStatuses,
    or_assoc]

/-- If the first `n` checks are non-terminal, the `n`-th check is
terminal, and the `n`-th check still falls inside the timeout window,
the loop returns that status at the `n`-th check, having slept `n`
times. -/
theorem waitGo_found (responses : Nat → AnalysisStatus) (pollInterval timeout : Int)
    (hp : 0 < pollInterval) :
    ∀ (n polls sleeps : Nat) (elapsed : Int),
      (∀ m, m < n →
        ((responses (polls + m)).isCompleted || (responses (polls + m)).isFailed) = false) →
      ((responses (polls + n)).isCompleted || (responses (polls + n)).isFailed) = true →
      elapsed + n * pollInterval < timeout →
      waitGo responses pollInterval timeout hp polls sleeps elapsed
        = .found (responses (polls + n)) (polls + n + 1) (sleeps + n) := by
  intro n
  induction n with
  | zero =>
    intro polls sleeps elapsed _ hterm hwin
    have hlt : elapsed < timeout := by
      have : ((0 : Nat) : Int) * pollInterval = 0 := by simp
      omega
    simp only [Nat.add_zero] at hterm ⊢
    unfold waitGo
    rw [if_pos hlt, if_pos hterm]
  | succ n ih =>
    intro polls sleeps elapsed hbefore hterm hwin
    have hpos : (0 : Int) < ((n : Int) + 1) * pollInterval := by positivity
    have hlt : elapsed < timeout := by
      push_cast at hwin
      nlinarith
    have hnt0 := hbefore 0 (by omega)
    simp only [Nat.add_zero] at hnt0
    unfold waitGo
    rw [if_pos hlt, if_neg (by simp [hnt0])]
    have hbefore' : ∀ m, m < n →
        ((responses (polls + 1 + m)).isCompleted ||
          (responses (polls + 1 + m)).isFailed) = false := by
      intro m hm
      have h := hbefore (m + 1) (by omega)
      rwa [show polls + (m + 1) = polls + 1 + m from by omega] at h
    have hterm' : ((responses (polls + 1 + n)).isCompleted ||
        (responses (polls + 1 + n)).isFailed) = true := by
      rwa [show polls + (n + 1) = polls + 1 + n from by omega] at hterm
    have hwin' : elapsed + pollInterval + (n : Int) * pollInterval < timeout := by
      push_cast at hwin
      nlinarith
    rw [ih (polls + 1) (sleeps + 1) (elapsed + pollInterval) hbefore' hterm' hwin',
      show polls + 1 + n = polls + (n + 1) from by omega,
      show sleeps + 1 + n = sleeps + (n + 1) from by omega]

/-- If no check that occurs inside the timeout window is terminal, the
loop always reaches the timeout branch: the result is a `TimeoutError`
whose elapsed time is at least the deadline and carries the one-decimal
message.  The `n`-th check occurs exactly when the clock, which then
stands at `n * pollInterval`, is still below the deadline — hence the
invariant `elapsed = polls * pollInterval`. -/
theorem waitGo_timedOut (responses : Nat → AnalysisStatus) (pollInterval timeout : Int)
    (hp : 0 < pollInterval)
    (hnt : ∀ n : Nat, (n : Int) * pollInterval < timeout →
      ((responses n).isCompleted || (responses n).isFailed) = false)
    (polls sleeps : Nat) (elapsed : Int)
    (hclock : elapsed = (polls : Int) * pollInterval) :
    ∃ e j, waitGo responses pollInterval timeout hp polls sleeps elapsed
        = .timedOut e j (timeoutMessage e) ∧ timeout ≤ e ∧ elapsed ≤ e := by
  by_cases hlt : elapsed < timeout
  · have hnt0 := hnt polls (hclock ▸ hlt)
    obtain ⟨e, j, heq, hte, hee⟩ := waitGo_timedOut responses pollInterval timeout hp hnt
      (polls + 1) (sleeps + 1) (elapsed + pollInterval)
      (by rw [hclock]; push_cast; ring)
    refine ⟨e, j, ?_, hte, by omega⟩
    unfold waitGo
    rw [if_pos hlt, if_neg (by simp [hnt0]), heq]
  · exact ⟨elapsed, polls, by unfold waitGo; rw [if_neg hlt], by omega, le_refl _⟩
termination_by (timeout - elapsed).toNat
decreasing_by omega

/-- C1: for every response sequence whose first terminal status (one of
COMPLETED, MANUAL_COMPLETED, FAILED) appears at check `n`, observed
inside the timeout window, `waitForCompletion` returns exactly that
status at the `n + 1`-th check with exactly `n` poll-interval
suspensions — one between each pair of consecutive checks and none
after the terminal observation. -/
theorem waitForCompletion_returns_first_terminal
    (responses : Nat → AnalysisStatus) (timeout pollInterval : Int) (n : Nat)
    (hp : 0 < pollInterval)
    (hbefore : ∀ m, m < n → (responses m).analysis_status ∉ terminalStatuses)
    (hterm : (responses n).analysis_status ∈ terminalStatuses)
    (hwin : (n : Int) * pollInterval < timeout) :
    waitForCompletion responses timeout pollInterval
      = some (.found (responses n) (n + 1) n) := by
  unfold waitForCompletion
  rw [dif_pos hp]
  have h := waitGo_found responses pollInterval timeout hp n 0 0 0
    (fun m hm => by
      have := hbefore m hm
      rw [Nat.zero_add]
      exact Bool.eq_false_iff.mpr fun hc => this ((terminal_iff _).mp hc))
    (by rw [Nat.zero_add]; exact (terminal_iff _).mpr hterm)
    (by omega)
  rw [h]
  simp

/-- Top-level form of `waitGo_timedOut`: a never-terminal response
sequence makes `waitForCompletion` raise `TimeoutError` with the
one-decimal message and an elapsed time at least the deadline. -/
theorem waitForCompletion_never_terminal
    (responses : Nat → AnalysisStatus) (timeout pollInterval : Int)
    (hp : 0 < pollInterval)
    (hnt : ∀ n : Nat, (n : Int) * pollInterval < timeout →
      (responses n).analysis_status ∉ terminalStatuses) :
    ∃ e j, waitForCompletion responses timeout pollInterval
        = some (.timedOut e j (timeoutMessage e)) ∧ timeout ≤ e := by
  have hnt' : ∀ n : Nat, (n : Int) * pollInterval < timeout →
      ((responses n).isCompleted || (responses n).isFailed) = false :=
    fun n hn => Bool.eq_false_iff.mpr fun hc => hnt n hn ((terminal_iff _).mp hc)
  obtain ⟨e, j, heq, hte, _⟩ :=
    waitGo_timedOut responses pollInterval timeout hp hnt' 0 0 0 (by simp)
  exact ⟨e, j, by unfold waitForCompletion; rw [dif_pos hp, heq], hte⟩

/-- C5: when no status check occurring before the timeout boundary
observes a terminal status, `waitForCompletion` raises `TimeoutError`
with the elapsed time (at least the deadline) rendered to one decimal
second in its message; and when the poll interval is at least the
(positive) timeout, exactly one status check happens before the
failure. -/
theorem waitForCompletion_timeout_spec
    (responses : Nat → AnalysisStatus) (timeout pollInterval : Int)
    (hp : 0 < pollInterval)
    (hnt : ∀ n : Nat, (n : Int) * pollInterval < timeout →
      (responses n).analysis_status ∉ terminalStatuses) :
    (∃ e j, waitForCompletion responses timeout pollInterval
        = some (.timedOut e j (timeoutMessage e)) ∧ timeout ≤ e)
    ∧ (0 < timeout → timeout ≤ pollInterval →
        waitForCompletion responses timeout pollInterval
          = some (.timedOut pollInterval 1 (timeoutMessage pollInterval))) := by
  constructor
  · exact waitForCompletion_never_terminal responses timeout pollInterval hp hnt
  · intro ht hple
    have hnt0 : ((responses 0).isCompleted || (responses 0).isFailed) = false :=
      Bool.eq_false_iff.mpr fun hc =>
        hnt 0 (by simpa using ht) ((terminal_iff _).mp hc)
    unfold waitForCompletion
    rw [dif_pos hp]
    unfold waitGo
    rw [if_pos (by omega), if_neg (by simp [hnt0])]
    unfold waitGo
    rw [if_neg (by omega)]
    norm_num

/-- C10: with a non-positive timeout the loop condition fails on entry:
no status check happens and `TimeoutError` is raised at once with zero
elapsed time, whatever the responses and the poll interval. -/
theorem waitForCompletion_nonpositive_timeout
    (responses : Nat → AnalysisStatus) (timeout pollInterval : Int)
    (ht : timeout ≤ 0) :
    waitForCompletion responses timeout pollInterval
      = some (.timedOut 0 0 (timeoutMessage 0)) := by
  unfold waitForCompletion
  by_cases hp : 0 < pollInterval
  · rw [dif_pos hp]
    unfold waitGo
    rw [if_neg (by omega)]
  · rw [dif_neg hp, if_neg (by omega)]

/-- C9: a status whose `analysis_status` is outside the five enumerated
codes has `isCompleted`, `isFailed` and `isProcessing` all false; and a
response sequence of such statuses is never treated as terminal, so
`waitForCompletion` polls until it raises `TimeoutError` instead of
returning one of them. -/
theorem unknown_status_nonterminal (s : AnalysisStatus)
    (h : s.analysis_status ∉
      ([AnalysisStatusEnum.PENDING, AnalysisStatusEnum.PROCESSING,
        AnalysisStatusEnum.COMPLETED, AnalysisStatusEnum.MANUAL_COMPLETED,
        AnalysisStatusEnum.FAILED] : List String)) :
    (s.isCompleted = false ∧ s.isFailed = false ∧ s.isProcessing = false)
    ∧ ∀ (responses : Nat → AnalysisStatus) (timeout pollInterval : Int),
        0 < pollInterval →
        (∀ n, (responses n).analysis_status ∉
          ([AnalysisStatusEnum.PENDING, AnalysisStatusEnum.PROCESSING,
            AnalysisStatusEnum.COMPLETED, AnalysisStatusEnum.MANUAL_COMPLETED,
            AnalysisStatusEnum.FAILED] : List String)) →
        ∃ e j, waitForCompletion responses timeout pollInterval
            = some (.timedOut e j (timeoutMessage e)) ∧ timeout ≤ e := by
  simp only [List.mem_cons, List.not_mem_nil, or_false, not_or] at h
  constructor
  · refine ⟨?_, ?_, ?_⟩ <;>
      simp [AnalysisStatus.isCompleted, AnalysisStatus.isFailed,
        AnalysisStatus.isProcessing, h.1, h.2.1, h.2.2.1, h.2.2.2.1, h.2.2.2.2]
  · intro responses timeout pollInterval hp hall
    refine waitForCompletion_never_terminal responses timeout pollInterval hp ?_
    intro n _
    have := hall n
    simp only [List.mem_cons, List.not_mem_nil, or_false, not_or] at this
    simp [terminalStatuses, this.2.2.1, this.2.2.2.1, this.2.2.2.2]

/-- The spec's worked example: two PROCESSING responses, then
COMPLETED. -/
def twoThenCompleted : Nat → AnalysisStatus := fun n =>
  mkStatus (if n < 2 then AnalysisStatusEnum.PROCESSING else AnalysisStatusEnum.COMPLETED)

/-- A service that reports PROCESSING forever. -/
def processingForever : Nat → AnalysisStatus := fun _ =>
  mkStatus AnalysisStatusEnum.PROCESSING

/-- An unknown status code outside the five enumerated values. -/
def unknownForever : Nat → AnalysisStatus := fun _ =>
  mkStatus "SOMETHING_ELSE"

/-- C1 witness: for PROCESSING, PROCESSING, COMPLETED with poll
interval 1000 ms and timeout 30000 ms, the call resolves with the
COMPLETED status after 3 checks and exactly 2 suspensions. -/
theorem waitForCompletion_returns_first_terminal_witness :
    (∀ m, m < 2 → (twoThenCompleted m).analysis_status ∉ terminalStatuses)
    ∧ (twoThenCompleted 2).analysis_status ∈ terminalStatuses
    ∧ ((2 : Nat) : Int) * 1000 < 30000
    ∧ waitForCompletion twoThenCompleted 30000 1000
        = some (.found (twoThenCompleted 2) 3 2)
    ∧ (twoThenCompleted 2).analysis_status = "COMPLETED" :=
  ⟨by decide, by decide, by decide,
    waitForCompletion_returns_first_terminal twoThenCompleted 30000 1000 2
      (by decide) (by decide) (by decide) (by decide),
    by decide⟩

/-- C5 witness: always-PROCESSING with timeout 5000 ms / poll 1000 ms
raises `TimeoutError` with elapsed at least 5000 ms and the one-decimal
message; with timeout 1000 ms / poll 5000 ms exactly one check happens
before the failure, at 5000 ms elapsed. -/
theorem waitForCompletion_timeout_spec_witness :
    (∃ e j, waitForCompletion processingForever 5000 1000
        = some (.timedOut e j (timeoutMessage e)) ∧ 5000 ≤ e)
    ∧ waitForCompletion processingForever 1000 5000
        = some (.timedOut 5000 1 (timeoutMessage 5000)) :=
  ⟨(waitForCompletion_timeout_spec processingForever 5000 1000 (by decide)
      (fun _ _ => by
        simp [processingForever, mkStatus, terminalStatuses,
          AnalysisStatusEnum.PROCESSING, AnalysisStatusEnum.COMPLETED,
          AnalysisStatusEnum.MANUAL_COMPLETED, AnalysisStatusEnum.FAILED])).1,
   (waitForCompletion_timeout_spec processingForever 1000 5000 (by decide)
      (fun _ _ => by
        simp [processingForever, mkStatus, terminalStatuses,
          AnalysisStatusEnum.PROCESSING, AnalysisStatusEnum.COMPLETED,
          AnalysisStatusEnum.MANUAL_COMPLETED, AnalysisStatusEnum.FAILED])).2 (by decide) (by decide)⟩

/-- C10 witness: `waitForCompletion` with timeout -5 ms (and separately
0 ms) times out at once with zero checks, elapsed 0. -/
theorem waitForCompletion_nonpositive_timeout_witness :
    waitForCompletion processingForever (-5) 1000
      = some (.timedOut 0 0 (timeoutMessage 0))
    ∧ waitForCompletion processingForever 0 (-3)
      = some (.timedOut 0 0 (timeoutMessage 0)) :=
  ⟨waitForCompletion_nonpositive_timeout processingForever (-5) 1000 (by decide),
   waitForCompletion_nonpositive_timeout processingForever 0 (-3) (by decide)⟩

/-- C9 witness: a status string outside the enumeration has all three
derived flags false, and a sequence of such statuses makes
`waitForCompletion` (timeout 3000 ms, poll 1000 ms) time out rather
than return. -/
theorem unknown_status_nonterminal_witness :
    ((mkStatus "SOMETHING_ELSE").isCompleted = false
      ∧ (mkStatus "SOMETHING_ELSE").isFailed = false
      ∧ (mkStatus "SOMETHING_ELSE").isProcessing = false)
    ∧ ∃ e j, waitForCompletion unknownForever 3000 1000
        = some (.timedOut e j (timeoutMessage e)) ∧ 3000 ≤ e :=
  ⟨(unknown_status_nonterminal (mkStatus "SOMETHING_ELSE") (by decide)).1,
   (unknown_status_nonterminal (mkStatus "SOMETHING_ELSE") (by decide)).2
      unknownForever 3000 1000 (by decide)
      (fun _ => by
        simp [unknownForever, mkStatus, AnalysisStatusEnum.PENDING,
          AnalysisStatusEnum.PROCESSING, AnalysisStatusEnum.COMPLETED,
          AnalysisStatusEnum.MANUAL_COMPLETED, AnalysisStatusEnum.FAILED])⟩

/-! ## Claim C8: the multipart body of `sendAnalysis`

The claim says each optional field is included iff the caller provided
it, omission (not null/empty string) signalling "let the server
decide".  The code guards each append with JavaScript truthiness
(`if (patientId) ...`), so a caller-provided *empty string* is dropped
exactly like an omission — the claimed "iff provided" fails at
`patientId = ""`. -/

/-- Membership in the entry contributed by one optional parameter. -/
theorem optEntry_mem_iff (entryName : String) (o : Option String)
    (p : String × String) :
    p ∈ optEntry entryName o ↔ p.1 = entryName ∧ o = some p.2 ∧ p.2 ≠ "" := by
  cases o with
  | none => simp [optEntry]
  | some s =>
    simp only [optEntry]
    by_cases h : s = ""
    · subst h
      refine iff_of_false (by simp) ?_
      rintro ⟨-, hsome, hne⟩
      exact hne (Option.some_inj.mp hsome).symm
    · rw [if_pos (by simpa using h)]
      cases p with
      | mk a b =>
        simp only [List.mem_singleton, Prod.mk.injEq, Option.some_inj]
        constructor
        · rintro ⟨rfl, rfl⟩
          exact ⟨rfl, rfl, h⟩
        · rintro ⟨rfl, rfl, _⟩
          exact ⟨rfl, rfl⟩

/-- C8 counterexample: providing `patient_id` as the empty string, the
multipart body contains no `patient_id` field at all (only the
mandatory report type), though the claim's "iff the caller provided
that field" demands one. -/
theorem sendAnalysisForm_empty_string_counterexample :
    (sendAnalysisForm (fun _ => []) (.bytes [0]) (some "") none none none none
        none "standard").fields
      = [("report_type", "standard")] := by decide

/-- C8 amended: the multipart body always contains the image bytes
(named by the path's basename, or the fixed placeholder `image.dcm` for
raw bytes) and the report type; each optional field appears iff the
caller provided it with a non-empty string — a provided empty string
(JavaScript-falsy) behaves like an omission. -/
theorem sendAnalysisForm_fields (fileContent : String → List Nat)
    (image : ImageInput)
    (patientId patientName patientGender patientDob radiographyType
      callbackUrl : Option String) (reportType : String) :
    ((sendAnalysisForm fileContent image patientId patientName patientGender
        patientDob radiographyType callbackUrl reportType).imageData
      = match image with
        | .path p => fileContent p
        | .bytes b => b)
    ∧ ((sendAnalysisForm fileContent image patientId patientName patientGender
        patientDob radiographyType callbackUrl reportType).imageFilename
      = match image with
        | .path p => basename p
        | .bytes _ => "image.dcm")
    ∧ ("report_type", reportType) ∈ (sendAnalysisForm fileContent image patientId
        patientName patientGender patientDob radiographyType callbackUrl
        reportType).fields
    ∧ (∀ v, ("radiography_type", v) ∈ (sendAnalysisForm fileContent image patientId
        patientName patientGender patientDob radiographyType callbackUrl
        reportType).fields ↔ radiographyType = some v ∧ v ≠ "")
    ∧ (∀ v, ("patient_id", v) ∈ (sendAnalysisForm fileContent image patientId
        patientName patientGender patientDob radiographyType callbackUrl
        reportType).fields ↔ patientId = some v ∧ v ≠ "")
    ∧ (∀ v, ("patient_name", v) ∈ (sendAnalysisForm fileContent image patientId
        patientName patientGender patientDob radiographyType callbackUrl
        reportType).fields ↔ patientName = some v ∧ v ≠ "")
    ∧ (∀ v, ("patient_gender", v) ∈ (sendAnalysisForm fileContent image patientId
        patientName patientGender patientDob radiographyType callbackUrl
        reportType).fields ↔ patientGender = some v ∧ v ≠ "")
    ∧ (∀ v, ("patient_dob", v) ∈ (sendAnalysisForm fileContent image patientId
        patientName patientGender patientDob radiographyType callbackUrl
        reportType).fields ↔ patientDob = some v ∧ v ≠ "")
    ∧ (∀ v, ("callback_url", v) ∈ (sendAnalysisForm fileContent image patientId
        patientName patientGender patientDob radiographyType callbackUrl
        reportType).fields ↔ callbackUrl = some v ∧ v ≠ "") := by
  refine ⟨by cases image <;> rfl, by cases image <;> rfl, ?_, ?_, ?_, ?_, ?_, ?_, ?_⟩
  · simp [sendAnalysisForm]
  all_goals
    intro v
    simp [sendAnalysisForm, List.mem_append, optEntry_mem_iff]

/-- C8 amended-claim witness: `sendAnalysisForm_fields` instantiated at
a path image with a provided patient id — the filename is the basename
and the `patient_id` field is present. -/
theorem sendAnalysisForm_fields_witness :
    (sendAnalysisForm (fun _ => [7]) (.path "/scans/img.dcm") (some "PAT-1") none
        none none none none "standard").imageFilename = "img.dcm"
    ∧ ("patient_id", "PAT-1") ∈ (sendAnalysisForm (fun _ => [7])
        (.path "/scans/img.dcm") (some "PAT-1") none none none none none
        "standard").fields :=
  ⟨by
    have h := (sendAnalysisForm_fields (fun _ => [7]) (.path "/scans/img.dcm")
      (some "PAT-1") none none none none none "standard").2.1
    simpa using h,
   ((sendAnalysisForm_fields (fun _ => [7]) (.path "/scans/img.dcm") (some "PAT-1")
      none none none none none "standard").2.2.2.2.1 "PAT-1").mpr (by decide)⟩

end BridgeIQ
